import Mathlib

namespace Rocks

/- Key codec (RocksRecordStore::_makeKey, _makePrefixedKey, _makeRecordId).
   A byte is a Nat below 256; keys are byte lists ordered the way memcmp
   orders equal-length byte strings. RecordId.repr is a signed 64-bit
   integer, modelled as Int; nativeToBig stores its two's-complement
   image big-endian. -/

def beBytes : Nat → Nat → List Nat
  | 0, _ => []
  | k + 1, n => n / 256 ^ k :: beBytes k (n % 256 ^ k)

def toUnsignedInt64 (i : Int) : Nat := (i % (2 ^ 64 : Int)).toNat

def fromUnsignedInt64 (n : Nat) : Int :=
  if n < 2 ^ 63 then (n : Int) else (n : Int) - 2 ^ 64

def makeKey (rid : Int) : List Nat := beBytes 8 (toUnsignedInt64 rid)

def makePrefixedKey (pfx : List Nat) (rid : Int) : List Nat := pfx ++ makeKey rid

def beVal (bs : List Nat) : Nat := bs.foldl (fun acc b => acc * 256 + b) 0

def makeRecordId (bs : List Nat) : Int := fromUnsignedInt64 (beVal bs)

def sliceLt : List Nat → List Nat → Bool
  | [], [] => false
  | [], _ :: _ => true
  | _ :: _, [] => false
  | a :: as1, b :: bs1 => if a < b then true else if b < a then false else sliceLt as1 bs1

/- Cursor model (RocksRecordStore::Cursor). A cursor carries the direction, whether the
   collection has a CappedVisibilityManager (capped or oplog), and the oplog read
   ceiling sampled at construction; a null RecordId has repr 0, so readUntilForOplog = 0
   plays the role of RecordId().isNull(). The element the underlying engine iterator is
   positioned on is passed as an Option (id, payload bytes); none models an invalid
   iterator. The uncommitted record id set of the CappedVisibilityManager is passed as
   the list of ids in insertion order, which the monotonic-append invariant keeps
   strictly increasing, so its front is its minimum. -/

structure CursorS where
  forward : Bool
  hasVis : Bool
  readUntilForOplog : Int
  lastLoc : Int
  eof : Bool
deriving DecidableEq

def isCappedHidden (uncommitted : List Int) (rid : Int) : Bool :=
  match uncommitted with
  | [] => false
  | f :: _ => decide (f ≤ rid)

def curr (c : CursorS) (uncommitted : List Int) (pos : Option (Int × List Nat)) :
    Option (Int × List Nat) × CursorS :=
  match pos with
  | none => (none, { c with eof := true })
  | some (rid, d) =>
    let c1 : CursorS := { c with eof := false, lastLoc := rid }
    if c.hasVis = true ∧ c.forward = true then
      if c.readUntilForOplog = 0 then
        if isCappedHidden uncommitted rid = true then (none, { c1 with eof := true })
        else (some (rid, d), c1)
      else
        if c.readUntilForOplog < rid ∨
            (rid = c.readUntilForOplog ∧ isCappedHidden uncommitted rid = true) then
          (none, { c1 with eof := true })
        else (some (rid, d), c1)
    else (some (rid, d), c1)

def seekExact (c : CursorS) (snapshot : Int → Option (List Nat)) (rid : Int) :
    Option (Int × List Nat) × CursorS :=
  match snapshot rid with
  | none => (none, { c with eof := true })
  | some d => (some (rid, d), { c with eof := false, lastLoc := rid })

/- CappedVisibilityManager state (rocks_record_store.cpp). The uncommitted record id
   list is kept in insertion order; the dassert in _addUncommittedRecord_inlock keeps
   it strictly increasing, so the front is the minimum. opsWaitingForJournal holds the
   ids whose erasure was deferred to the oplog journal thread. -/

structure VisState where
  uncommittedRecords : List Int
  oplogHighestSeen : Int
  opsWaitingForJournal : List Int
deriving DecidableEq

structure VisSignals where
  opsWaitingForJournalNotified : Bool
  opsBecameVisibleNotified : Bool
deriving DecidableEq

def addUncommittedRecord (v : VisState) (rid : Int) : VisState :=
  { v with uncommittedRecords := v.uncommittedRecords ++ [rid], oplogHighestSeen := rid }

def updateHighestSeen (v : VisState) (rid : Int) : VisState :=
  if v.oplogHighestSeen < rid then { v with oplogHighestSeen := rid } else v

def dealtWithCappedRecord (isOplog : Bool) (v : VisState) (rid : Int) (didCommit : Bool) :
    VisState × VisSignals :=
  if didCommit = true ∧ isOplog = true ∧ rid ≠ v.oplogHighestSeen then
    let wasEmpty := v.opsWaitingForJournal.isEmpty
    ({ v with opsWaitingForJournal := v.opsWaitingForJournal ++ [rid] },
      { opsWaitingForJournalNotified := wasEmpty, opsBecameVisibleNotified := false })
  else
    ({ v with uncommittedRecords := v.uncommittedRecords.erase rid },
      { opsWaitingForJournalNotified := false, opsBecameVisibleNotified := true })

def oplogWritesVisiblePred (waitingFor : Int) (v : VisState) : Bool :=
  match v.uncommittedRecords with
  | [] => true
  | f :: _ => decide (waitingFor < f)

/- waitForAllEarlierOplogWritesToBeVisible samples waitingFor = oplogHighestSeen under
   the mutex on entry, then waits on opsBecameVisibleCV until the predicate holds. The
   sequence of states the thread observes at its wakeups is passed as a list; the
   function returns the first observed state satisfying the predicate, or none if the
   wait never terminates. -/
def waitForAllEarlierOplogWritesToBeVisible (v0 : VisState) (laterStates : List VisState) :
    Option VisState :=
  let waitingFor := v0.oplogHighestSeen
  (v0 :: laterStates).find? (oplogWritesVisiblePred waitingFor)

/- RocksRecordStore state and operations. The engine key-value contents of one
   collection are modelled as an id-sorted association list from record id to payload
   length, which is what the capped deleter consumes: for the oplog the deleter
   iterates the RocksOplogKeyTracker shadow index, whose keys coincide with the
   collection's and whose values decode to the payload lengths, so the same list
   serves both paths. numRecords and dataSize model the in-memory atomics; a
   transaction's pending per-key deltas are carried separately in TxnDeltas, since
   the recovery unit applies them to the atomics only at commit. The write batch is
   applied directly to the list, and the events list records the calls the store
   issues, in program order. -/

inductive REvent where
  | updateHighestSeenEv (rid : Int)
  | addUncommittedEv (rid : Int)
  | putRecord (rid : Int) (len : Nat)
  | oplogTrackerPut (rid : Int) (len : Nat)
  | deleteRecordKey (rid : Int)
  | oplogTrackerDelete (rid : Int)
  | changeNumRecords (amount : Int)
  | increaseDataSize (amount : Int)
deriving DecidableEq

structure TxnDeltas where
  numRecordsDelta : Int
  dataSizeDelta : Int
deriving DecidableEq

structure Store where
  isCapped : Bool
  isOplog : Bool
  cappedMaxSize : Int
  cappedMaxDocs : Int
  hasBackgroundThread : Bool
  shuttingDown : Bool
  numRecords : Int
  dataSize : Int
  nextIdNum : Int
  cappedOldestKeyHint : Int
  records : List (Int × Nat)
  vis : VisState
deriving DecidableEq

/- The runtime facts the deleter observes from outside the store: which keys
   registerWrite succeeds on, and how lock contention resolves on the purely
   foreground path. -/
structure DeleterEnv where
  canRegisterWrite : Int → Bool
  foregroundContended : Bool
  foregroundAcquiredIn200 : Bool

structure DeleteOutcome where
  docsRemoved : Int
  removedRecords : List (Int × Nat)
  store : Store
  lockWaitBoundMs : Nat
  unboundedWait : Bool
  events : List REvent

def cappedMaxSizeSlackFromSize (cappedMaxSize : Int) : Int :=
  min (cappedMaxSize / 10) (16 * 1024 * 1024)

def cappedAndNeedDelete (s : Store) (dataSizeDelta numRecordsDelta : Int) : Bool :=
  decide (s.dataSize + dataSizeDelta > s.cappedMaxSize) ||
    (decide (s.cappedMaxDocs ≠ -1) &&
      decide (s.numRecords + numRecordsDelta > s.cappedMaxDocs))

/- The walk of cappedDeleteAsNeeded_inlock over the keys at or after the oldest-key
   hint: the loop guard and the four break conditions, in source order; the records it
   deletes are returned in iteration order. sizeSaved and docsRemoved are the loop
   accumulators. -/
def cappedDeleteLoop (hidden canWrite : Int → Bool) (shuttingDown : Bool)
    (justInserted sizeOverCap docsOverCap : Int) :
    List (Int × Nat) → Nat → Nat → List (Int × Nat)
  | [], _, _ => []
  | (rid, len) :: rest, sizeSaved, docsRemoved =>
    if ((sizeSaved : Int) < sizeOverCap ∨ (docsRemoved : Int) < docsOverCap) ∧
        docsRemoved < 20000 then
      if hidden rid = true then []
      else if justInserted ≤ rid then []
      else if shuttingDown = true then []
      else if canWrite rid = false then []
      else
        (rid, len) :: cappedDeleteLoop hidden canWrite shuttingDown justInserted
          sizeOverCap docsOverCap rest (sizeSaved + len) (docsRemoved + 1)
    else []

def cappedDeleteAsNeeded_inlock (env : DeleterEnv) (s : Store) (txn : TxnDeltas)
    (justInserted : Int) : DeleteOutcome :=
  let dataSize := s.dataSize + txn.dataSizeDelta
  let numRecords := s.numRecords + txn.numRecordsDelta
  let sizeOverCap := if dataSize > s.cappedMaxSize then dataSize - s.cappedMaxSize else 0
  let docsOverCap := if s.cappedMaxDocs ≠ -1 ∧ numRecords > s.cappedMaxDocs
    then numRecords - s.cappedMaxDocs else 0
  let scanned := s.records.dropWhile (fun r => decide (r.1 < s.cappedOldestKeyHint))
  let removed := cappedDeleteLoop (isCappedHidden s.vis.uncommittedRecords)
    env.canRegisterWrite s.shuttingDown justInserted sizeOverCap docsOverCap scanned 0 0
  let removedIds := removed.map (fun r => r.1)
  let sizeSaved : Int := removed.foldl (fun acc r => acc + (r.2 : Int)) 0
  let remaining := scanned.drop removed.length
  let newHint := match remaining with
    | (rid, _) :: _ =>
      if isCappedHidden s.vis.uncommittedRecords rid = true then s.cappedOldestKeyHint
      else rid
    | [] => s.cappedOldestKeyHint
  let store1 : Store :=
    { s with
      records := s.records.filter (fun r => !(removedIds.contains r.1)),
      numRecords := if removed.length > 0 then s.numRecords - removed.length else s.numRecords,
      dataSize := if removed.length > 0 then s.dataSize - sizeSaved else s.dataSize,
      cappedOldestKeyHint := newHint }
  let events :=
    (removed.flatMap (fun r =>
      REvent.deleteRecordKey r.1 ::
        (if s.isOplog = true then [REvent.oplogTrackerDelete r.1] else []))) ++
    (if removed.length > 0 then
      [REvent.changeNumRecords (-(removed.length : Int)),
        REvent.increaseDataSize (-sizeSaved)]
    else [])
  { docsRemoved := (removed.length : Int), removedRecords := removed, store := store1,
    lockWaitBoundMs := 0, unboundedWait := false, events := events }

def noDeleteOutcome (s : Store) (waitMs : Nat) : DeleteOutcome :=
  { docsRemoved := 0, removedRecords := [], store := s, lockWaitBoundMs := waitMs,
    unboundedWait := false, events := [] }

def cappedDeleteAsNeeded (env : DeleterEnv) (s : Store) (txn : TxnDeltas)
    (justInserted : Int) : DeleteOutcome :=
  if s.isCapped = false then noDeleteOutcome s 0
  else
    if cappedAndNeedDelete s (if s.isOplog = true then 0 else txn.dataSizeDelta)
        (if s.isOplog = true then 0 else txn.numRecordsDelta) = false then noDeleteOutcome s 0
    else if s.cappedMaxDocs ≠ -1 then
      { cappedDeleteAsNeeded_inlock env s txn justInserted with unboundedWait := true }
    else if s.hasBackgroundThread = true then
      if s.dataSize - s.cappedMaxSize < cappedMaxSizeSlackFromSize s.cappedMaxSize then
        noDeleteOutcome s 0
      else noDeleteOutcome s 200
    else
      if env.foregroundContended = false then cappedDeleteAsNeeded_inlock env s txn justInserted
      else if s.dataSize - s.cappedMaxSize < cappedMaxSizeSlackFromSize s.cappedMaxSize then
        noDeleteOutcome s 0
      else if env.foregroundAcquiredIn200 = false then noDeleteOutcome s 200
      else if s.dataSize - s.cappedMaxSize < 2 * cappedMaxSizeSlackFromSize s.cappedMaxSize then
        noDeleteOutcome s 200
      else
        { cappedDeleteAsNeeded_inlock env s txn justInserted with lockWaitBoundMs := 200 }

inductive InsertErr where
  | badValue
  | extractKeyFailed
deriving DecidableEq

structure InsertOutcome where
  result : Except InsertErr Int
  store : Store
  txn : TxnDeltas
  events : List REvent

/- Insertion into the sorted association list: the semantics of WriteBatch Put under
   the collection prefix, with overwrite on an existing key. -/
def kvInsert (rid : Int) (len : Nat) : List (Int × Nat) → List (Int × Nat)
  | [] => [(rid, len)]
  | (a, l) :: rest =>
    if rid < a then (rid, len) :: (a, l) :: rest
    else if rid = a then (rid, len) :: rest
    else (a, l) :: kvInsert rid len rest

/- Shared tail of insertRecord after the id has been chosen (lines 673-685 of
   rocks_record_store.cpp): stage the Put, mirror it into the oplog key tracker,
   register the counter deltas, then run cappedDeleteAsNeeded with the new id. -/
def insertRecordFinish (env : DeleterEnv) (s : Store) (txn : TxnDeltas) (loc : Int)
    (len : Nat) (ev0 : List REvent) : InsertOutcome :=
  let s1 := { s with records := kvInsert loc len s.records }
  let ev1 := ev0 ++ [REvent.putRecord loc len] ++
    (if s.isOplog = true then [REvent.oplogTrackerPut loc len] else [])
  let txn1 : TxnDeltas := { numRecordsDelta := txn.numRecordsDelta + 1,
                            dataSizeDelta := txn.dataSizeDelta + (len : Int) }
  let ev2 := ev1 ++ [REvent.changeNumRecords 1, REvent.increaseDataSize (len : Int)]
  let out := cappedDeleteAsNeeded env s1 txn1 loc
  { result := Except.ok loc, store := out.store, txn := txn1, events := ev2 ++ out.events }

/- RocksRecordStore::insertRecord. The oplog id extraction (oploghack::extractKey,
   which reads the timestamp the record self-describes) is an external contract of the
   caller-side codec and is passed in as the extractKey argument. -/
def insertRecord (env : DeleterEnv) (extractKey : List Nat → Except InsertErr Int)
    (s : Store) (txn : TxnDeltas) (data : List Nat) : InsertOutcome :=
  if s.isCapped = true ∧ (data.length : Int) > s.cappedMaxSize then
    { result := Except.error InsertErr.badValue, store := s, txn := txn, events := [] }
  else if s.isOplog = true then
    match extractKey data with
    | Except.error e => { result := Except.error e, store := s, txn := txn, events := [] }
    | Except.ok loc =>
      insertRecordFinish env { s with vis := updateHighestSeen s.vis loc } txn loc
        data.length [REvent.updateHighestSeenEv loc]
  else if s.isCapped = true then
    insertRecordFinish env
      { s with nextIdNum := s.nextIdNum + 1, vis := addUncommittedRecord s.vis s.nextIdNum }
      txn s.nextIdNum data.length [REvent.addUncommittedEv s.nextIdNum]
  else
    insertRecordFinish env { s with nextIdNum := s.nextIdNum + 1 } txn s.nextIdNum
      data.length []

/- RocksRecordStore::oplogDiskLocRegister: the caller-facing entry point that adds a
   caller-supplied oplog id to the uncommitted set, registering the commit/rollback
   hook. It is the only place addUncommittedRecord is invoked for the oplog. -/
def oplogDiskLocRegister (s : Store) (rid : Int) : Store × List REvent :=
  ({ s with vis := addUncommittedRecord s.vis rid }, [REvent.addUncommittedEv rid])


theorem sliceLt_append (p x y : List Nat) : sliceLt (p ++ x) (p ++ y) = sliceLt x y := by
  induction p with
  | nil => rfl
  | cons a t ih => simp [sliceLt, ih]

theorem beBytes_lt (k : Nat) : ∀ n m : Nat, n < 256 ^ k → m < 256 ^ k →
    (sliceLt (beBytes k n) (beBytes k m) = true ↔ n < m) := by
  induction k with
  | zero =>
    intro n m hn hm
    simp only [pow_zero, Nat.lt_one_iff] at hn hm
    simp [beBytes, sliceLt, hn, hm]
  | succ k ih =>
    intro n m hn hm
    have hB : 0 < 256 ^ k := pow_pos (by norm_num) k
    simp only [beBytes, sliceLt]
    rcases Nat.lt_trichotomy (n / 256 ^ k) (m / 256 ^ k) with h | h | h
    · simp only [if_pos h]
      constructor
      · intro _
        by_contra hnm
        have hdle : m / 256 ^ k ≤ n / 256 ^ k :=
          Nat.div_le_div_right (Nat.le_of_not_lt hnm)
        omega
      · intro _; trivial
    · rw [h]
      simp only [lt_irrefl, if_false]
      rw [ih (n % 256 ^ k) (m % 256 ^ k) (Nat.mod_lt n hB) (Nat.mod_lt m hB)]
      have hnd := Nat.div_add_mod n (256 ^ k)
      have hmd := Nat.div_add_mod m (256 ^ k)
      rw [h] at hnd
      omega
    · rw [if_neg (Nat.lt_asymm h), if_pos h]
      simp only [Bool.false_eq_true, false_iff]
      intro hlt
      have hdle : n / 256 ^ k ≤ m / 256 ^ k :=
        Nat.div_le_div_right (Nat.le_of_lt hlt)
      omega

theorem beVal_go (k : Nat) : ∀ n acc : Nat, n < 256 ^ k →
    (beBytes k n).foldl (fun a b => a * 256 + b) acc = acc * 256 ^ k + n := by
  induction k with
  | zero =>
    intro n acc hn
    simp only [pow_zero, Nat.lt_one_iff] at hn
    simp [beBytes, hn]
  | succ k ih =>
    intro n acc hn
    have hB : 0 < 256 ^ k := pow_pos (by norm_num) k
    simp only [beBytes, List.foldl]
    rw [ih (n % 256 ^ k) (acc * 256 + n / 256 ^ k) (Nat.mod_lt n hB)]
    have hnd := Nat.div_add_mod n (256 ^ k)
    rw [pow_succ]
    nlinarith [hnd]

theorem beVal_beBytes8 (n : Nat) (hn : n < 2 ^ 64) : beVal (beBytes 8 n) = n := by
  have h : n < 256 ^ 8 := by norm_num at hn ⊢; omega
  unfold beVal
  rw [beVal_go 8 n 0 h]
  omega

theorem toUnsignedInt64_lt (i : Int) : toUnsignedInt64 i < 2 ^ 64 := by
  unfold toUnsignedInt64
  have h1 : (0 : Int) < 2 ^ 64 := by norm_num
  have h2 := Int.emod_lt_of_pos i h1
  have h3 := Int.emod_nonneg i (by norm_num : (2 ^ 64 : Int) ≠ 0)
  omega

theorem makeRecordId_makeKey (rid : Int)
    (h0 : -(2 ^ 63) ≤ rid) (h1 : rid < 2 ^ 63) :
    makeRecordId (makeKey rid) = rid := by
  unfold makeRecordId makeKey
  rw [beVal_beBytes8 (toUnsignedInt64 rid) (toUnsignedInt64_lt rid)]
  unfold fromUnsignedInt64 toUnsignedInt64
  have h2 := Int.emod_nonneg rid (by norm_num : (2 ^ 64 : Int) ≠ 0)
  have h3 := Int.emod_lt_of_pos rid (by norm_num : (0 : Int) < 2 ^ 64)
  have h4 : rid % 2 ^ 64 = rid ∨ rid % 2 ^ 64 = rid + 2 ^ 64 := by
    rcases le_or_lt 0 rid with hpos | hneg
    · left
      exact Int.emod_eq_of_lt hpos (by omega)
    · right
      have h5 : (rid + 2 ^ 64) % 2 ^ 64 = rid % 2 ^ 64 := by
        simpa using Int.add_mul_emod_self_left rid (2 ^ 64) 1
      have h6 : (rid + 2 ^ 64) % 2 ^ 64 = rid + 2 ^ 64 :=
        Int.emod_eq_of_lt (by omega) (by omega)
      omega
  split
  · omega
  · omega

theorem makePrefixedKey_lt_iff (pfx : List Nat) (a b : Int)
    (ha0 : 0 ≤ a) (hb0 : 0 ≤ b) (ha1 : a < 2 ^ 63) (hb1 : b < 2 ^ 63) :
    (sliceLt (makePrefixedKey pfx a) (makePrefixedKey pfx b) = true ↔ a < b) := by
  unfold makePrefixedKey makeKey
  rw [sliceLt_append]
  have h8 : (256 : Nat) ^ 8 = 2 ^ 64 := by norm_num
  rw [beBytes_lt 8 (toUnsignedInt64 a) (toUnsignedInt64 b)
      (h8 ▸ toUnsignedInt64_lt a) (h8 ▸ toUnsignedInt64_lt b)]
  unfold toUnsignedInt64
  have hma : a % 2 ^ 64 = a := Int.emod_eq_of_lt ha0 (by omega)
  have hmb : b % 2 ^ 64 = b := Int.emod_eq_of_lt hb0 (by omega)
  rw [hma, hmb]
  omega

/-- C9 (amended): for every fixed prefix and every pair of nonnegative record ids a and b,
the encoded key of (prefix, a) precedes the encoded key of (prefix, b) in lexicographic
byte order exactly when a < b; and decoding the last 8 bytes of an encoded key as a
big-endian two's-complement word returns the original id, for every id representable as
a signed 64-bit integer. Over the full signed RecordId domain the order equivalence
fails, because a negative repr is stored as its two's-complement image, which sorts
above every nonnegative image; see the counterexample. -/
theorem keycodec_order_and_decode (pfx : List Nat) (a b rid : Int)
    (ha0 : 0 ≤ a) (hb0 : 0 ≤ b) (ha1 : a < 2 ^ 63) (hb1 : b < 2 ^ 63)
    (hr0 : -(2 ^ 63) ≤ rid) (hr1 : rid < 2 ^ 63) :
    (sliceLt (makePrefixedKey pfx a) (makePrefixedKey pfx b) = true ↔ a < b) ∧
    makeRecordId ((makePrefixedKey pfx rid).drop pfx.length) = rid := by
  refine ⟨makePrefixedKey_lt_iff pfx a b ha0 hb0 ha1 hb1, ?_⟩
  have hd : (makePrefixedKey pfx rid).drop pfx.length = makeKey rid := by
    unfold makePrefixedKey
    simp
  rw [hd]
  exact makeRecordId_makeKey rid hr0 hr1

/-- Witness for the C9 theorem at prefix 0x01, a = 3, b = 7 and rid = -2. -/
theorem keycodec_order_and_decode_witness :
    (0 : Int) ≤ 3 ∧ (0 : Int) ≤ 7 ∧ (3 : Int) < 2 ^ 63 ∧ (7 : Int) < 2 ^ 63 ∧
    -(2 ^ 63) ≤ (-2 : Int) ∧ (-2 : Int) < 2 ^ 63 ∧
    ((sliceLt (makePrefixedKey [1] 3) (makePrefixedKey [1] 7) = true ↔ (3 : Int) < 7) ∧
      makeRecordId ((makePrefixedKey [1] (-2)).drop (List.length [1])) = -2) :=
  ⟨by norm_num, by norm_num, by norm_num, by norm_num, by norm_num, by norm_num,
    keycodec_order_and_decode [1] 3 7 (-2) (by norm_num) (by norm_num) (by norm_num)
      (by norm_num) (by norm_num) (by norm_num)⟩

/-- C9 counterexample: with the empty prefix and the signed record ids a = -1 and b = 0
we have a < b, yet the encoded key of a does not precede the encoded key of b: the
two's-complement big-endian image of -1 is the all-0xFF byte string, which sorts after
the all-0x00 image of 0. So the claimed equivalence, stated over all record ids, is
false at this input. -/
theorem keycodec_order_cex :
    ¬ ((sliceLt (makePrefixedKey [] (-1)) (makePrefixedKey [] 0) = true) ↔ ((-1 : Int) < 0)) := by
  decide

/-- C1: for a forward cursor with a non-null oplog read ceiling, a record positioned
under the cursor is withheld, with the cursor reporting EOF, exactly when its id is
above the ceiling or equals the ceiling while capped-hidden; and every positioned
record with id strictly below the ceiling is returned, with EOF left unset. -/
theorem oplog_cursor_readUntil_rule (c : CursorS) (uncommitted : List Int)
    (rid : Int) (d : List Nat)
    (hvis : c.hasVis = true) (hfwd : c.forward = true)
    (hnn : c.readUntilForOplog ≠ 0) :
    ((curr c uncommitted (some (rid, d))).1 = none ∧
        (curr c uncommitted (some (rid, d))).2.eof = true ↔
      c.readUntilForOplog < rid ∨
        (rid = c.readUntilForOplog ∧ isCappedHidden uncommitted rid = true)) ∧
    (rid < c.readUntilForOplog →
      (curr c uncommitted (some (rid, d))).1 = some (rid, d) ∧
        (curr c uncommitted (some (rid, d))).2.eof = false) := by
  unfold curr
  simp only [hvis, hfwd, and_self, if_true, if_neg hnn, if_pos]
  constructor
  · by_cases hcond : c.readUntilForOplog < rid ∨
        (rid = c.readUntilForOplog ∧ isCappedHidden uncommitted rid = true)
    · simp [hcond]
    · simp [hcond]
  · intro hlt
    have hcond : ¬ (c.readUntilForOplog < rid ∨
        (rid = c.readUntilForOplog ∧ isCappedHidden uncommitted rid = true)) := by
      push_neg
      constructor
      · omega
      · intro he; omega
    simp [hcond]

theorem sorted_front_le (f : Int) (t : List Int)
    (hs : List.Sorted (· < ·) (f :: t)) : ∀ u ∈ f :: t, f ≤ u := by
  intro u hu
  rcases List.mem_cons.mp hu with h | h
  · exact le_of_eq h.symm
  · exact le_of_lt ((List.sorted_cons.mp hs).1 u h)

/-- C2: isCappedHidden is true exactly when the uncommitted set is non-empty and the id
is at least its minimum, which is the front of the strictly increasing list; and a
forward cursor over a capped collection never returns a record whose id is at or above
the minimum uncommitted id at emission time: both on the plain capped path, where the
ceiling is null, and on the oplog path, where the ceiling sampled at construction lies
at or below every currently uncommitted id, a returned record id is strictly below
every uncommitted id. -/
theorem isCappedHidden_min_and_reader (uncommitted : List Int) (rid : Int)
    (c : CursorS) (d : List Nat)
    (hs : List.Sorted (· < ·) uncommitted)
    (hvis : c.hasVis = true) (hfwd : c.forward = true)
    (hceil : c.readUntilForOplog = 0 ∨ ∀ u ∈ uncommitted, c.readUntilForOplog ≤ u) :
    (isCappedHidden uncommitted rid = true ↔
      uncommitted ≠ [] ∧ ∃ u ∈ uncommitted, u ≤ rid) ∧
    ((curr c uncommitted (some (rid, d))).1 = some (rid, d) →
      ∀ u ∈ uncommitted, rid < u) := by
  constructor
  · cases uncommitted with
    | nil => simp [isCappedHidden]
    | cons f t =>
      simp only [isCappedHidden, decide_eq_true_eq]
      constructor
      · intro hfr
        exact ⟨List.cons_ne_nil f t, f, List.mem_cons_self f t, hfr⟩
      · rintro ⟨hne, u, hu, hur⟩
        have hfu : f ≤ u := sorted_front_le f t hs u hu
        omega
  · intro hret u hu
    simp only [curr] at hret
    rw [if_pos ⟨hvis, hfwd⟩] at hret
    by_cases h0 : c.readUntilForOplog = 0
    · rw [if_pos h0] at hret
      by_cases hh : isCappedHidden uncommitted rid = true
      · rw [if_pos hh] at hret
        exact absurd hret (by simp)
      · cases uncommitted with
        | nil => simp at hu
        | cons f t =>
          simp only [isCappedHidden, decide_eq_true_eq] at hh
          have hfu : f ≤ u := sorted_front_le f t hs u hu
          omega
    · rw [if_neg h0] at hret
      rcases hceil with hceq | hc
      · exact absurd hceq h0
      by_cases hcond : c.readUntilForOplog < rid ∨
          (rid = c.readUntilForOplog ∧ isCappedHidden uncommitted rid = true)
      · rw [if_pos hcond] at hret
        exact absurd hret (by simp)
      · push_neg at hcond
        obtain ⟨h1, h2⟩ := hcond
        have hru := hc u hu
        rcases eq_or_lt_of_le h1 with heq | hlt
        · have hh := h2 heq
          cases uncommitted with
          | nil => simp at hu
          | cons f t =>
            simp [isCappedHidden] at hh
            have hfu : f ≤ u := sorted_front_le f t hs u hu
            omega
        · omega

/-- C10: seekExact ignores both visibility filters: whenever the key for the id is
present in the transaction snapshot it returns the record with its payload and clears
EOF, even for an id that is capped-hidden or above the cursor's oplog read ceiling;
and when the key is absent it returns none and marks the cursor at EOF, taking no
error path. -/
theorem seekExact_bypasses_visibility (c : CursorS) (snapshot : Int → Option (List Nat))
    (rid : Int) (uncommitted : List Int) :
    (∀ d, snapshot rid = some d →
      (seekExact c snapshot rid).1 = some (rid, d) ∧
        (seekExact c snapshot rid).2.eof = false ∧
        ((isCappedHidden uncommitted rid = true ∨ c.readUntilForOplog < rid) →
          (seekExact c snapshot rid).1 = some (rid, d))) ∧
    (snapshot rid = none →
      (seekExact c snapshot rid).1 = none ∧ (seekExact c snapshot rid).2.eof = true) := by
  constructor
  · intro d hd
    simp [seekExact, hd]
  · intro hnone
    simp [seekExact, hnone]

/-- Witness for the C10 theorem: id 5 is capped-hidden behind uncommitted id 4 and
above the ceiling 3, yet seekExact still returns it from the snapshot. -/
theorem seekExact_bypasses_visibility_witness :
    isCappedHidden [4] 5 = true ∧
    (seekExact ⟨true, true, 3, 0, false⟩
        (fun i => if i = 5 then some ([9] : List Nat) else none) 5).1 = some (5, [9]) :=
  ⟨by decide,
    ((seekExact_bypasses_visibility ⟨true, true, 3, 0, false⟩
        (fun i => if i = 5 then some ([9] : List Nat) else none) 5 [4]).1 [9]
      (by decide)).1⟩

/-- Witness for the C1 theorem: ceiling 10, uncommitted front 10; id 11 is withheld
and id 7 is returned. -/
theorem oplog_cursor_readUntil_rule_witness :
    ((⟨true, true, 10, 0, false⟩ : CursorS).hasVis = true) ∧
    ((⟨true, true, 10, 0, false⟩ : CursorS).forward = true) ∧
    ((⟨true, true, 10, 0, false⟩ : CursorS).readUntilForOplog ≠ 0) ∧
    ((curr ⟨true, true, 10, 0, false⟩ [10] (some (11, [2]))).1 = none ∧
      (curr ⟨true, true, 10, 0, false⟩ [10] (some (11, [2]))).2.eof = true) ∧
    ((curr ⟨true, true, 10, 0, false⟩ [10] (some (7, [2]))).1 = some (7, [2])) :=
  ⟨rfl, rfl, by decide,
    (oplog_cursor_readUntil_rule ⟨true, true, 10, 0, false⟩ [10] 11 [2] rfl rfl
        (by decide)).1.mpr (Or.inl (by decide)),
    ((oplog_cursor_readUntil_rule ⟨true, true, 10, 0, false⟩ [10] 7 [2] rfl rfl
        (by decide)).2 (by decide)).1⟩

/-- Witness for the C2 theorem at uncommitted set 5, 9 with ceiling 5 and id 6. -/
theorem isCappedHidden_min_and_reader_witness :
    List.Sorted (· < ·) ([5, 9] : List Int) ∧
    ((⟨true, true, 5, 0, false⟩ : CursorS).hasVis = true) ∧
    ((⟨true, true, 5, 0, false⟩ : CursorS).forward = true) ∧
    ((⟨true, true, 5, 0, false⟩ : CursorS).readUntilForOplog = 0 ∨
      ∀ u ∈ ([5, 9] : List Int), (⟨true, true, 5, 0, false⟩ : CursorS).readUntilForOplog ≤ u) ∧
    ((isCappedHidden [5, 9] 6 = true ↔
        ([5, 9] : List Int) ≠ [] ∧ ∃ u ∈ ([5, 9] : List Int), u ≤ 6) ∧
      ((curr ⟨true, true, 5, 0, false⟩ [5, 9] (some (6, ([] : List Nat)))).1 =
          some (6, ([] : List Nat)) →
        ∀ u ∈ ([5, 9] : List Int), 6 < u)) :=
  ⟨by decide, rfl, rfl, Or.inr (by decide),
    isCappedHidden_min_and_reader [5, 9] 6 ⟨true, true, 5, 0, false⟩ [] (by decide)
      rfl rfl (Or.inr (by decide))⟩

/-- C4: waitForAllEarlierOplogWritesToBeVisible samples the highest seen id once at
entry, and the state in which it returns has an empty uncommitted set or an
uncommitted minimum strictly above that sampled value. -/
theorem waitForAllEarlier_post (v0 : VisState) (laterStates : List VisState)
    (v : VisState)
    (hret : waitForAllEarlierOplogWritesToBeVisible v0 laterStates = some v)
    (hs : List.Sorted (· < ·) v.uncommittedRecords) :
    v.uncommittedRecords = [] ∨
      ∀ u ∈ v.uncommittedRecords, v0.oplogHighestSeen < u := by
  have hp : oplogWritesVisiblePred v0.oplogHighestSeen v = true := by
    have := List.find?_some hret
    exact this
  cases hu : v.uncommittedRecords with
  | nil => exact Or.inl rfl
  | cons f t =>
    right
    rw [hu] at hs
    simp only [oplogWritesVisiblePred, hu, decide_eq_true_eq] at hp
    intro u humem
    have hfu : f ≤ u := sorted_front_le f t hs u (hu ▸ humem)
    omega

/-- Witness for the C4 theorem: with highestSeen 5 and an already-empty uncommitted
set the wait returns at once, in the entry state. -/
theorem waitForAllEarlier_post_witness :
    waitForAllEarlierOplogWritesToBeVisible ⟨[], 5, []⟩ [] = some ⟨[], 5, []⟩ ∧
    List.Sorted (· < ·) (⟨[], 5, []⟩ : VisState).uncommittedRecords ∧
    ((⟨[], 5, []⟩ : VisState).uncommittedRecords = [] ∨
      ∀ u ∈ (⟨[], 5, []⟩ : VisState).uncommittedRecords,
        (⟨[], 5, []⟩ : VisState).oplogHighestSeen < u) :=
  ⟨by decide, by decide,
    waitForAllEarlier_post ⟨[], 5, []⟩ [] ⟨[], 5, []⟩ (by decide) (by decide)⟩

/-- C3 (amended): in the commit or rollback hook for an uncommitted capped record, if
the collection is the oplog, the transaction committed, and the id differs from the
current highestSeen, the id is not erased from the uncommitted set but appended to
opsWaitingForJournal, and the journal condition variable is signalled exactly when
that queue was empty before the append; in every other case the id is erased from the
uncommitted set immediately and opsBecameVisibleCV is signalled. The original claim
said the journal condition variable is always signalled on the deferred path; the code
notifies it only when the queue transitions from empty to non-empty. -/
theorem dealtWithCappedRecord_cases (isOplog : Bool) (v : VisState) (rid : Int)
    (didCommit : Bool) :
    (didCommit = true ∧ isOplog = true ∧ rid ≠ v.oplogHighestSeen →
      (dealtWithCappedRecord isOplog v rid didCommit).1.uncommittedRecords =
          v.uncommittedRecords ∧
      (dealtWithCappedRecord isOplog v rid didCommit).1.opsWaitingForJournal =
          v.opsWaitingForJournal ++ [rid] ∧
      ((dealtWithCappedRecord isOplog v rid didCommit).2.opsWaitingForJournalNotified =
          true ↔ v.opsWaitingForJournal = []) ∧
      (dealtWithCappedRecord isOplog v rid didCommit).2.opsBecameVisibleNotified =
          false) ∧
    (¬ (didCommit = true ∧ isOplog = true ∧ rid ≠ v.oplogHighestSeen) →
      (dealtWithCappedRecord isOplog v rid didCommit).1.uncommittedRecords =
          v.uncommittedRecords.erase rid ∧
      (dealtWithCappedRecord isOplog v rid didCommit).1.opsWaitingForJournal =
          v.opsWaitingForJournal ∧
      (dealtWithCappedRecord isOplog v rid didCommit).2.opsBecameVisibleNotified =
          true ∧
      (dealtWithCappedRecord isOplog v rid didCommit).2.opsWaitingForJournalNotified =
          false) := by
  constructor
  · intro hcond
    unfold dealtWithCappedRecord
    rw [if_pos hcond]
    refine ⟨rfl, rfl, ?_, rfl⟩
    simp [List.isEmpty_iff]
  · intro hcond
    unfold dealtWithCappedRecord
    rw [if_neg hcond]
    exact ⟨rfl, rfl, rfl, rfl⟩

/-- Witness for the C3 theorem: a committed oplog id 6 with highestSeen 7 and an empty
journal queue takes the deferred path and does signal; a rolled-back id takes the
immediate path. -/
theorem dealtWithCappedRecord_cases_witness :
    ((true = true ∧ true = true ∧ (6 : Int) ≠ (⟨[6, 7], 7, []⟩ : VisState).oplogHighestSeen →
      (dealtWithCappedRecord true ⟨[6, 7], 7, []⟩ 6 true).1.uncommittedRecords =
          (⟨[6, 7], 7, []⟩ : VisState).uncommittedRecords ∧
      (dealtWithCappedRecord true ⟨[6, 7], 7, []⟩ 6 true).1.opsWaitingForJournal =
          (⟨[6, 7], 7, []⟩ : VisState).opsWaitingForJournal ++ [6] ∧
      ((dealtWithCappedRecord true ⟨[6, 7], 7, []⟩ 6 true).2.opsWaitingForJournalNotified =
          true ↔ (⟨[6, 7], 7, []⟩ : VisState).opsWaitingForJournal = []) ∧
      (dealtWithCappedRecord true ⟨[6, 7], 7, []⟩ 6 true).2.opsBecameVisibleNotified =
          false) ∧
    (¬ (true = true ∧ true = true ∧ (6 : Int) ≠ (⟨[6, 7], 7, []⟩ : VisState).oplogHighestSeen) →
      (dealtWithCappedRecord true ⟨[6, 7], 7, []⟩ 6 true).1.uncommittedRecords =
          (⟨[6, 7], 7, []⟩ : VisState).uncommittedRecords.erase 6 ∧
      (dealtWithCappedRecord true ⟨[6, 7], 7, []⟩ 6 true).1.opsWaitingForJournal =
          (⟨[6, 7], 7, []⟩ : VisState).opsWaitingForJournal ∧
      (dealtWithCappedRecord true ⟨[6, 7], 7, []⟩ 6 true).2.opsBecameVisibleNotified =
          true ∧
      (dealtWithCappedRecord true ⟨[6, 7], 7, []⟩ 6 true).2.opsWaitingForJournalNotified =
          false)) :=
  dealtWithCappedRecord_cases true ⟨[6, 7], 7, []⟩ 6 true

/-- C3 counterexample: a committed oplog id 6, with highestSeen 7 and the journal queue
already holding id 5, is appended to the queue and not erased from the uncommitted
set, as the claim says, but the journal condition variable is NOT signalled, because
the queue was not empty; the claim asserts it is signalled in this case. -/
theorem dealtWithCappedRecord_signal_cex :
    (dealtWithCappedRecord true ⟨[6, 7], 7, [5]⟩ 6 true).1.opsWaitingForJournal = [5, 6] ∧
    (dealtWithCappedRecord true ⟨[6, 7], 7, [5]⟩ 6 true).1.uncommittedRecords = [6, 7] ∧
    ¬ ((dealtWithCappedRecord true ⟨[6, 7], 7, [5]⟩ 6 true).2.opsWaitingForJournalNotified =
        true) := by
  decide

/-- C5: for every capped collection and payload strictly longer than cappedMaxSize,
insertRecord fails with BadValue and performs nothing: the store, with its counters,
record contents, next id and visibility state, and the transaction deltas are left
unchanged, and no engine call is staged, so no record is written and no id is
allocated. -/
theorem insert_oversized_badValue (env : DeleterEnv)
    (extractKey : List Nat → Except InsertErr Int) (s : Store) (txn : TxnDeltas)
    (data : List Nat)
    (hcap : s.isCapped = true) (hlen : (data.length : Int) > s.cappedMaxSize) :
    insertRecord env extractKey s txn data =
      { result := Except.error InsertErr.badValue, store := s, txn := txn, events := [] } := by
  unfold insertRecord
  rw [if_pos ⟨hcap, hlen⟩]

/-- Witness for the C5 theorem: an 11-byte payload against cappedMaxSize 10. -/
theorem insert_oversized_badValue_witness :
    (⟨true, false, 10, -1, false, false, 0, 0, 1, 0, [], ⟨[], 0, []⟩⟩ : Store).isCapped =
        true ∧
    ((List.replicate 11 0).length : Int) >
        (⟨true, false, 10, -1, false, false, 0, 0, 1, 0, [], ⟨[], 0, []⟩⟩ : Store).cappedMaxSize ∧
    insertRecord ⟨fun _ => true, false, false⟩ (fun _ => Except.ok 0)
        ⟨true, false, 10, -1, false, false, 0, 0, 1, 0, [], ⟨[], 0, []⟩⟩ ⟨0, 0⟩
        (List.replicate 11 0) =
      { result := Except.error InsertErr.badValue,
        store := ⟨true, false, 10, -1, false, false, 0, 0, 1, 0, [], ⟨[], 0, []⟩⟩,
        txn := ⟨0, 0⟩, events := [] } :=
  ⟨rfl, by decide,
    insert_oversized_badValue ⟨fun _ => true, false, false⟩ (fun _ => Except.ok 0)
      ⟨true, false, 10, -1, false, false, 0, 0, 1, 0, [], ⟨[], 0, []⟩⟩ ⟨0, 0⟩
      (List.replicate 11 0) rfl (by decide)⟩

theorem cappedDeleteLoop_mem (hidden canWrite : Int → Bool) (sd : Bool)
    (ji soc doc : Int) :
    ∀ (recs : List (Int × Nat)) (ss dr : Nat) (p : Int × Nat),
      p ∈ cappedDeleteLoop hidden canWrite sd ji soc doc recs ss dr →
      hidden p.1 = false ∧ p.1 < ji ∧ canWrite p.1 = true := by
  intro recs
  induction recs with
  | nil =>
    intro ss dr p hp
    simp [cappedDeleteLoop] at hp
  | cons hd tl ih =>
    intro ss dr p hp
    obtain ⟨rid, len⟩ := hd
    unfold cappedDeleteLoop at hp
    by_cases hg : (((ss : Int) < soc ∨ (dr : Int) < doc) ∧ dr < 20000)
    · rw [if_pos hg] at hp
      by_cases h1 : hidden rid = true
      · rw [if_pos h1] at hp
        simp at hp
      · rw [if_neg h1] at hp
        by_cases h2 : ji ≤ rid
        · rw [if_pos h2] at hp
          simp at hp
        · rw [if_neg h2] at hp
          by_cases h3 : sd = true
          · rw [if_pos h3] at hp
            simp at hp
          · rw [if_neg h3] at hp
            by_cases h4 : canWrite rid = false
            · rw [if_pos h4] at hp
              simp at hp
            · rw [if_neg h4] at hp
              rcases List.mem_cons.mp hp with h | h
              · subst h
                refine ⟨?_, by omega, ?_⟩
                · cases hh : hidden rid with
                  | false => rfl
                  | true => exact absurd hh h1
                · cases hh : canWrite rid with
                  | true => rfl
                  | false => exact absurd hh h4
              · exact ih (ss + len) (dr + 1) p h
    · rw [if_neg hg] at hp
      simp at hp

theorem cappedDeleteLoop_length (hidden canWrite : Int → Bool) (sd : Bool)
    (ji soc doc : Int) :
    ∀ (recs : List (Int × Nat)) (ss dr : Nat),
      (cappedDeleteLoop hidden canWrite sd ji soc doc recs ss dr).length ≤ 20000 - dr := by
  intro recs
  induction recs with
  | nil =>
    intro ss dr
    simp [cappedDeleteLoop]
  | cons hd tl ih =>
    intro ss dr
    obtain ⟨rid, len⟩ := hd
    unfold cappedDeleteLoop
    by_cases hg : (((ss : Int) < soc ∨ (dr : Int) < doc) ∧ dr < 20000)
    · rw [if_pos hg]
      by_cases h1 : hidden rid = true
      · rw [if_pos h1]; simp
      · rw [if_neg h1]
        by_cases h2 : ji ≤ rid
        · rw [if_pos h2]; simp
        · rw [if_neg h2]
          by_cases h3 : sd = true
          · rw [if_pos h3]; simp
          · rw [if_neg h3]
            by_cases h4 : canWrite rid = false
            · rw [if_pos h4]; simp
            · rw [if_neg h4]
              have hih := ih (ss + len) (dr + 1)
              simp only [List.length_cons]
              omega
    · rw [if_neg hg]; simp

theorem cappedDeleteLoop_prefix (hidden canWrite : Int → Bool) (sd : Bool)
    (ji soc doc : Int) :
    ∀ (recs : List (Int × Nat)) (ss dr : Nat),
      ∃ rest, recs = cappedDeleteLoop hidden canWrite sd ji soc doc recs ss dr ++ rest := by
  intro recs
  induction recs with
  | nil =>
    intro ss dr
    exact ⟨[], by simp [cappedDeleteLoop]⟩
  | cons hd tl ih =>
    intro ss dr
    obtain ⟨rid, len⟩ := hd
    unfold cappedDeleteLoop
    by_cases hg : (((ss : Int) < soc ∨ (dr : Int) < doc) ∧ dr < 20000)
    · rw [if_pos hg]
      by_cases h1 : hidden rid = true
      · rw [if_pos h1]; exact ⟨(rid, len) :: tl, rfl⟩
      · rw [if_neg h1]
        by_cases h2 : ji ≤ rid
        · rw [if_pos h2]; exact ⟨(rid, len) :: tl, rfl⟩
        · rw [if_neg h2]
          by_cases h3 : sd = true
          · rw [if_pos h3]; exact ⟨(rid, len) :: tl, rfl⟩
          · rw [if_neg h3]
            by_cases h4 : canWrite rid = false
            · rw [if_pos h4]; exact ⟨(rid, len) :: tl, rfl⟩
            · rw [if_neg h4]
              obtain ⟨rest, hrest⟩ := ih (ss + len) (dr + 1)
              exact ⟨rest, by rw [List.cons_append, ← hrest]⟩
    · rw [if_neg hg]; exact ⟨(rid, len) :: tl, rfl⟩

theorem inlock_removedRecords_eq (env : DeleterEnv) (s : Store) (txn : TxnDeltas)
    (justInserted : Int) :
    (cappedDeleteAsNeeded_inlock env s txn justInserted).removedRecords =
      cappedDeleteLoop (isCappedHidden s.vis.uncommittedRecords) env.canRegisterWrite
        s.shuttingDown justInserted
        (if s.dataSize + txn.dataSizeDelta > s.cappedMaxSize
          then s.dataSize + txn.dataSizeDelta - s.cappedMaxSize else 0)
        (if s.cappedMaxDocs ≠ -1 ∧ s.numRecords + txn.numRecordsDelta > s.cappedMaxDocs
          then s.numRecords + txn.numRecordsDelta - s.cappedMaxDocs else 0)
        (s.records.dropWhile (fun r => decide (r.1 < s.cappedOldestKeyHint))) 0 0 := rfl

/-- C6: a single capped deletion pass never deletes a record with id at or above
justInserted, never deletes a record that is capped-hidden when examined, and removes
at most 20000 records; and the records it deletes form a prefix of the scanned key
sequence starting at the oldest-key hint, so the pass stops at the first record that
violates one of its conditions and touches nothing beyond it. -/
theorem cappedDelete_inlock_bounds (env : DeleterEnv) (s : Store) (txn : TxnDeltas)
    (justInserted : Int) :
    (∀ p ∈ (cappedDeleteAsNeeded_inlock env s txn justInserted).removedRecords,
      p.1 < justInserted ∧ isCappedHidden s.vis.uncommittedRecords p.1 = false) ∧
    (cappedDeleteAsNeeded_inlock env s txn justInserted).removedRecords.length ≤ 20000 ∧
    ∃ rest, s.records.dropWhile (fun r => decide (r.1 < s.cappedOldestKeyHint)) =
      (cappedDeleteAsNeeded_inlock env s txn justInserted).removedRecords ++ rest := by
  rw [inlock_removedRecords_eq]
  refine ⟨?_, ?_, ?_⟩
  · intro p hp
    have h := cappedDeleteLoop_mem (isCappedHidden s.vis.uncommittedRecords)
      env.canRegisterWrite s.shuttingDown justInserted _ _ _ 0 0 p hp
    exact ⟨h.2.1, h.1⟩
  · have h := cappedDeleteLoop_length (isCappedHidden s.vis.uncommittedRecords)
      env.canRegisterWrite s.shuttingDown justInserted
      (if s.dataSize + txn.dataSizeDelta > s.cappedMaxSize
        then s.dataSize + txn.dataSizeDelta - s.cappedMaxSize else 0)
      (if s.cappedMaxDocs ≠ -1 ∧ s.numRecords + txn.numRecordsDelta > s.cappedMaxDocs
        then s.numRecords + txn.numRecordsDelta - s.cappedMaxDocs else 0)
      (s.records.dropWhile (fun r => decide (r.1 < s.cappedOldestKeyHint))) 0 0
    omega
  · exact cappedDeleteLoop_prefix (isCappedHidden s.vis.uncommittedRecords)
      env.canRegisterWrite s.shuttingDown justInserted _ _ _ 0 0

/-- Witness for the C6 theorem: a pass over records 1, 2, 3 of size 4 each with
justInserted 3, size over cap, and id 2 capped-hidden deletes only record 1. -/
theorem cappedDelete_inlock_bounds_witness :
    (∀ p ∈ (cappedDeleteAsNeeded_inlock ⟨fun _ => true, false, false⟩
        ⟨true, false, 4, -1, false, false, 3, 12, 4, 0, [(1, 4), (2, 4), (3, 4)],
          ⟨[2], 2, []⟩⟩ ⟨0, 0⟩ 3).removedRecords,
      p.1 < 3 ∧ isCappedHidden [2] p.1 = false) ∧
    (cappedDeleteAsNeeded_inlock ⟨fun _ => true, false, false⟩
        ⟨true, false, 4, -1, false, false, 3, 12, 4, 0, [(1, 4), (2, 4), (3, 4)],
          ⟨[2], 2, []⟩⟩ ⟨0, 0⟩ 3).removedRecords.length ≤ 20000 ∧
    ∃ rest, ([(1, 4), (2, 4), (3, 4)] : List (Int × Nat)).dropWhile
        (fun r => decide (r.1 < (0 : Int))) =
      (cappedDeleteAsNeeded_inlock ⟨fun _ => true, false, false⟩
        ⟨true, false, 4, -1, false, false, 3, 12, 4, 0, [(1, 4), (2, 4), (3, 4)],
          ⟨[2], 2, []⟩⟩ ⟨0, 0⟩ 3).removedRecords ++ rest :=
  cappedDelete_inlock_bounds ⟨fun _ => true, false, false⟩
    ⟨true, false, 4, -1, false, false, 3, 12, 4, 0, [(1, 4), (2, 4), (3, 4)],
      ⟨[2], 2, []⟩⟩ ⟨0, 0⟩ 3

theorem delete_events_no_addUncommitted (removed : List (Int × Nat)) (flag : Bool)
    (count : Nat) (sz : Int) (x : Int) :
    REvent.addUncommittedEv x ∉
      ((removed.flatMap (fun r =>
        REvent.deleteRecordKey r.1 ::
          (if flag = true then [REvent.oplogTrackerDelete r.1] else []))) ++
        (if count > 0 then
          [REvent.changeNumRecords (-(count : Int)), REvent.increaseDataSize (-sz)]
        else [])) := by
  intro hmem
  rcases List.mem_append.mp hmem with h | h
  · rcases List.mem_flatMap.mp h with ⟨r, _, hr⟩
    rcases List.mem_cons.mp hr with h2 | h2
    · exact absurd h2 (by simp)
    · revert h2
      split <;> simp
  · revert h
    split <;> simp

theorem cappedDeleteAsNeeded_no_addUncommitted (env : DeleterEnv) (s : Store)
    (txn : TxnDeltas) (ji x : Int) :
    REvent.addUncommittedEv x ∉ (cappedDeleteAsNeeded env s txn ji).events := by
  unfold cappedDeleteAsNeeded
  by_cases h1 : s.isCapped = false
  · rw [if_pos h1]; simp [noDeleteOutcome]
  · rw [if_neg h1]
    by_cases h2 : cappedAndNeedDelete s (if s.isOplog = true then 0 else txn.dataSizeDelta)
        (if s.isOplog = true then 0 else txn.numRecordsDelta) = false
    · rw [if_pos h2]; simp [noDeleteOutcome]
    · rw [if_neg h2]
      by_cases h3 : s.cappedMaxDocs ≠ -1
      · rw [if_pos h3]
        exact delete_events_no_addUncommitted _ _ _ _ x
      · rw [if_neg h3]
        by_cases h4 : s.hasBackgroundThread = true
        · rw [if_pos h4]
          by_cases h5 : s.dataSize - s.cappedMaxSize <
              cappedMaxSizeSlackFromSize s.cappedMaxSize
          · rw [if_pos h5]; simp [noDeleteOutcome]
          · rw [if_neg h5]; simp [noDeleteOutcome]
        · rw [if_neg h4]
          by_cases h6 : env.foregroundContended = false
          · rw [if_pos h6]
            exact delete_events_no_addUncommitted _ _ _ _ x
          · rw [if_neg h6]
            by_cases h7 : s.dataSize - s.cappedMaxSize <
                cappedMaxSizeSlackFromSize s.cappedMaxSize
            · rw [if_pos h7]; simp [noDeleteOutcome]
            · rw [if_neg h7]
              by_cases h8 : env.foregroundAcquiredIn200 = false
              · rw [if_pos h8]; simp [noDeleteOutcome]
              · rw [if_neg h8]
                by_cases h9 : s.dataSize - s.cappedMaxSize <
                    2 * cappedMaxSizeSlackFromSize s.cappedMaxSize
                · rw [if_pos h9]; simp [noDeleteOutcome]
                · rw [if_neg h9]
                  exact delete_events_no_addUncommitted _ _ _ _ x

theorem insertRecordFinish_no_addUncommitted (env : DeleterEnv) (s : Store)
    (txn : TxnDeltas) (loc : Int) (len : Nat) (ev0 : List REvent) (x : Int)
    (hev0 : REvent.addUncommittedEv x ∉ ev0) :
    REvent.addUncommittedEv x ∉ (insertRecordFinish env s txn loc len ev0).events := by
  intro hmem
  simp only [insertRecordFinish] at hmem
  rcases List.mem_append.mp hmem with h | h
  · rcases List.mem_append.mp h with h1 | h1
    · rcases List.mem_append.mp h1 with h2 | h2
      · rcases List.mem_append.mp h2 with h3 | h3
        · exact hev0 h3
        · simp at h3
      · revert h2
        split <;> simp
    · simp at h1
  · exact cappedDeleteAsNeeded_no_addUncommitted _ _ _ _ x h

/-- C7 (amended): on a successful insert into the oplog the id is the one the oplog
key codec extracts from the payload, and the store calls updateHighestSeen for it
before staging the Put; insertRecord itself never calls addUncommitted — the id is
added to the uncommitted set only through the separate oplogDiskLocRegister entry
point, whose whole effect is that one addUncommitted call. The original claim also
required insertRecord to call addUncommitted before the Put, which the code does not
do. -/
theorem oplog_insert_calls (env : DeleterEnv)
    (extractKey : List Nat → Except InsertErr Int) (s : Store) (txn : TxnDeltas)
    (data : List Nat) (loc : Int)
    (hop : s.isOplog = true)
    (hsz : ¬ (s.isCapped = true ∧ (data.length : Int) > s.cappedMaxSize))
    (hex : extractKey data = Except.ok loc) :
    (insertRecord env extractKey s txn data).result = Except.ok loc ∧
    (∃ tail, (insertRecord env extractKey s txn data).events =
      REvent.updateHighestSeenEv loc :: REvent.putRecord loc data.length :: tail) ∧
    (∀ x, REvent.addUncommittedEv x ∉ (insertRecord env extractKey s txn data).events) ∧
    (oplogDiskLocRegister s loc).2 = [REvent.addUncommittedEv loc] := by
  unfold insertRecord
  rw [if_neg hsz, if_pos hop, hex]
  refine ⟨rfl, ?_, ?_, rfl⟩
  · refine ⟨[REvent.oplogTrackerPut loc data.length, REvent.changeNumRecords 1,
      REvent.increaseDataSize (data.length : Int)] ++
      (cappedDeleteAsNeeded env
        { s with vis := updateHighestSeen s.vis loc,
                 records := kvInsert loc data.length s.records }
        { numRecordsDelta := txn.numRecordsDelta + 1,
          dataSizeDelta := txn.dataSizeDelta + (data.length : Int) } loc).events, ?_⟩
    simp [insertRecordFinish, hop]
  · intro x
    exact insertRecordFinish_no_addUncommitted _ _ _ _ _ _ x (by simp)

/-- Witness for the C7 theorem: an oplog store inserting a payload whose codec
extracts id 5. -/
theorem oplog_insert_calls_witness :
    (⟨true, true, 100, -1, true, false, 0, 0, 1, 0, [], ⟨[], 0, []⟩⟩ : Store).isOplog =
        true ∧
    ¬ ((⟨true, true, 100, -1, true, false, 0, 0, 1, 0, [], ⟨[], 0, []⟩⟩ : Store).isCapped =
          true ∧
        (([7] : List Nat).length : Int) >
          (⟨true, true, 100, -1, true, false, 0, 0, 1, 0, [], ⟨[], 0, []⟩⟩ : Store).cappedMaxSize) ∧
    ((fun _ => Except.ok 5 : List Nat → Except InsertErr Int) [7] = Except.ok 5) ∧
    ((insertRecord ⟨fun _ => true, false, false⟩ (fun _ => Except.ok 5)
        ⟨true, true, 100, -1, true, false, 0, 0, 1, 0, [], ⟨[], 0, []⟩⟩ ⟨0, 0⟩ [7]).result =
      Except.ok 5 ∧
    (∃ tail, (insertRecord ⟨fun _ => true, false, false⟩ (fun _ => Except.ok 5)
        ⟨true, true, 100, -1, true, false, 0, 0, 1, 0, [], ⟨[], 0, []⟩⟩ ⟨0, 0⟩ [7]).events =
      REvent.updateHighestSeenEv 5 :: REvent.putRecord 5 ([7] : List Nat).length :: tail) ∧
    (∀ x, REvent.addUncommittedEv x ∉
      (insertRecord ⟨fun _ => true, false, false⟩ (fun _ => Except.ok 5)
        ⟨true, true, 100, -1, true, false, 0, 0, 1, 0, [], ⟨[], 0, []⟩⟩ ⟨0, 0⟩ [7]).events) ∧
    (oplogDiskLocRegister ⟨true, true, 100, -1, true, false, 0, 0, 1, 0, [], ⟨[], 0, []⟩⟩
        5).2 = [REvent.addUncommittedEv 5]) :=
  ⟨rfl, by decide, rfl,
    oplog_insert_calls ⟨fun _ => true, false, false⟩ (fun _ => Except.ok 5)
      ⟨true, true, 100, -1, true, false, 0, 0, 1, 0, [], ⟨[], 0, []⟩⟩ ⟨0, 0⟩ [7] 5 rfl
      (by decide) rfl⟩

/-- C7 counterexample: the same oplog insert succeeds with id 5, its event trace is
exactly updateHighestSeen, Put, tracker Put and the two counter bumps, and an
addUncommitted call for id 5 appears nowhere in it; the claim as stated requires
insertRecord to call addUncommitted for the id before staging the Put, which is
false at this input. -/
theorem oplog_insert_no_addUncommitted_cex :
    (insertRecord ⟨fun _ => true, false, false⟩ (fun _ => Except.ok 5)
        ⟨true, true, 100, -1, true, false, 0, 0, 1, 0, [], ⟨[], 0, []⟩⟩ ⟨0, 0⟩ [7]).result =
      Except.ok 5 ∧
    REvent.addUncommittedEv 5 ∉
      (insertRecord ⟨fun _ => true, false, false⟩ (fun _ => Except.ok 5)
        ⟨true, true, 100, -1, true, false, 0, 0, 1, 0, [], ⟨[], 0, []⟩⟩ ⟨0, 0⟩ [7]).events := by
  constructor
  · rfl
  · decide

/-- C8: for a capped collection with no document cap and a dedicated background
deleter thread, a foreground cappedDeleteAsNeeded call returns 0, deletes nothing and
leaves the store, with its numRecords and dataSize, unchanged; it performs no
unbounded wait and blocks on the deleter mutex at most 200 milliseconds, and when
dataSize minus cappedMaxSize is below the slack it returns without touching the mutex
at all. -/
theorem background_deleter_foreground_noop (env : DeleterEnv) (s : Store)
    (txn : TxnDeltas) (justInserted : Int)
    (hcap : s.isCapped = true) (hdocs : s.cappedMaxDocs = -1)
    (hbg : s.hasBackgroundThread = true) :
    (cappedDeleteAsNeeded env s txn justInserted).docsRemoved = 0 ∧
    (cappedDeleteAsNeeded env s txn justInserted).removedRecords = [] ∧
    (cappedDeleteAsNeeded env s txn justInserted).store = s ∧
    (cappedDeleteAsNeeded env s txn justInserted).events = [] ∧
    (cappedDeleteAsNeeded env s txn justInserted).unboundedWait = false ∧
    (cappedDeleteAsNeeded env s txn justInserted).lockWaitBoundMs ≤ 200 ∧
    (s.dataSize - s.cappedMaxSize < cappedMaxSizeSlackFromSize s.cappedMaxSize →
      (cappedDeleteAsNeeded env s txn justInserted).lockWaitBoundMs = 0) := by
  unfold cappedDeleteAsNeeded
  rw [if_neg (by simp [hcap])]
  by_cases h2 : cappedAndNeedDelete s (if s.isOplog = true then 0 else txn.dataSizeDelta)
      (if s.isOplog = true then 0 else txn.numRecordsDelta) = false
  · rw [if_pos h2]
    exact ⟨rfl, rfl, rfl, rfl, rfl, by simp [noDeleteOutcome], fun _ => rfl⟩
  · rw [if_neg h2, if_neg (by simp [hdocs]), if_pos hbg]
    by_cases h5 : s.dataSize - s.cappedMaxSize < cappedMaxSizeSlackFromSize s.cappedMaxSize
    · rw [if_pos h5]
      exact ⟨rfl, rfl, rfl, rfl, rfl, by simp [noDeleteOutcome], fun _ => rfl⟩
    · rw [if_neg h5]
      exact ⟨rfl, rfl, rfl, rfl, rfl, le_refl 200, fun hcon => absurd hcon h5⟩

/-- Witness for the C8 theorem: dataSize 500 against cappedMaxSize 100 with a
background deleter thread; the call returns 0 without deleting and with at most the
200 millisecond back-pressure wait. -/
theorem background_deleter_foreground_noop_witness :
    (⟨true, false, 100, -1, true, false, 0, 500, 1, 0, [(1, 500)], ⟨[], 0, []⟩⟩ :
        Store).isCapped = true ∧
    (⟨true, false, 100, -1, true, false, 0, 500, 1, 0, [(1, 500)], ⟨[], 0, []⟩⟩ :
        Store).cappedMaxDocs = -1 ∧
    (⟨true, false, 100, -1, true, false, 0, 500, 1, 0, [(1, 500)], ⟨[], 0, []⟩⟩ :
        Store).hasBackgroundThread = true ∧
    ((cappedDeleteAsNeeded ⟨fun _ => true, false, false⟩
        ⟨true, false, 100, -1, true, false, 0, 500, 1, 0, [(1, 500)], ⟨[], 0, []⟩⟩
        ⟨0, 0⟩ 2).docsRemoved = 0 ∧
    (cappedDeleteAsNeeded ⟨fun _ => true, false, false⟩
        ⟨true, false, 100, -1, true, false, 0, 500, 1, 0, [(1, 500)], ⟨[], 0, []⟩⟩
        ⟨0, 0⟩ 2).removedRecords = [] ∧
    (cappedDeleteAsNeeded ⟨fun _ => true, false, false⟩
        ⟨true, false, 100, -1, true, false, 0, 500, 1, 0, [(1, 500)], ⟨[], 0, []⟩⟩
        ⟨0, 0⟩ 2).store =
      ⟨true, false, 100, -1, true, false, 0, 500, 1, 0, [(1, 500)], ⟨[], 0, []⟩⟩ ∧
    (cappedDeleteAsNeeded ⟨fun _ => true, false, false⟩
        ⟨true, false, 100, -1, true, false, 0, 500, 1, 0, [(1, 500)], ⟨[], 0, []⟩⟩
        ⟨0, 0⟩ 2).events = [] ∧
    (cappedDeleteAsNeeded ⟨fun _ => true, false, false⟩
        ⟨true, false, 100, -1, true, false, 0, 500, 1, 0, [(1, 500)], ⟨[], 0, []⟩⟩
        ⟨0, 0⟩ 2).unboundedWait = false ∧
    (cappedDeleteAsNeeded ⟨fun _ => true, false, false⟩
        ⟨true, false, 100, -1, true, false, 0, 500, 1, 0, [(1, 500)], ⟨[], 0, []⟩⟩
        ⟨0, 0⟩ 2).lockWaitBoundMs ≤ 200 ∧
    ((⟨true, false, 100, -1, true, false, 0, 500, 1, 0, [(1, 500)], ⟨[], 0, []⟩⟩ :
          Store).dataSize -
        (⟨true, false, 100, -1, true, false, 0, 500, 1, 0, [(1, 500)], ⟨[], 0, []⟩⟩ :
          Store).cappedMaxSize <
        cappedMaxSizeSlackFromSize
          (⟨true, false, 100, -1, true, false, 0, 500, 1, 0, [(1, 500)], ⟨[], 0, []⟩⟩ :
            Store).cappedMaxSize →
      (cappedDeleteAsNeeded ⟨fun _ => true, false, false⟩
        ⟨true, false, 100, -1, true, false, 0, 500, 1, 0, [(1, 500)], ⟨[], 0, []⟩⟩
        ⟨0, 0⟩ 2).lockWaitBoundMs = 0)) :=
  ⟨rfl, rfl, rfl,
    background_deleter_foreground_noop ⟨fun _ => true, false, false⟩
      ⟨true, false, 100, -1, true, false, 0, 500, 1, 0, [(1, 500)], ⟨[], 0, []⟩⟩
      ⟨0, 0⟩ 2 rfl rfl rfl⟩
